import Mathlib

/-! # Phonebook request handlers (`src/index.js`)

A shallow embedding of the Express route handlers of `src/index.js` and of the
centralised `errorHandler`, together with an in-memory model of the `Person`
collection they delegate to.

* Values read from `req.body` are `JsVal`s; `JsVal.truthy` is JavaScript
  truthiness, so `!name || !number` is `!name.truthy || !number.truthy`.
* The handlers are written once, over an arbitrary `Persistence σ` (the operations
  of the `Person` model that the handlers call).  A handler returns the response it
  writes or the error it passes to `next`, the store after the request, and the list
  of persistence calls it made, in order.
* `console.log` / `console.error` output is not part of the model.
-/

namespace Phonebook

/-! ## Values, errors, entities -/

/-- A value found in a parsed JSON body. `undefined` is an absent property, `object`
stands for any array or object (their contents are not modelled), `num` carries the
numeric value (only the test against zero matters to the handlers). -/
inductive JsVal where
  | undefined
  | null
  | bool (b : Bool)
  | num (n : Int)
  | str (s : String)
  | object
  deriving DecidableEq, Repr

/-- JavaScript truthiness: `undefined`, `null`, `false`, `0` and `""` are falsy. -/
def JsVal.truthy : JsVal → Bool
  | .undefined => false
  | .null => false
  | .bool b => b
  | .num n => n != 0
  | .str s => s != ""
  | .object => true

/-- The fields of a thrown error that `errorHandler` reads: `err.name`, `err.kind`
(absent on most errors) and `err.message`. -/
structure JsError where
  name : String
  kind : Option String
  message : String
  deriving DecidableEq, Repr

/-- A phonebook entry as the handlers see it (spec, data model): `id`, `name`, `number`. -/
structure Person where
  id : String
  name : String
  number : String
  deriving DecidableEq, Repr

/-! ## Requests and responses -/

/-- The two properties the handlers destructure from `req.body`. -/
structure ReqBody where
  name : JsVal
  number : JsVal
  deriving DecidableEq, Repr

/-- A request, after routing: one constructor per registered route, in the order of
registration, and `unmatched` for everything else. -/
inductive Request where
  | getPersons
  | getPerson (id : String)
  | postPerson (body : ReqBody)
  | putPerson (id : String) (body : ReqBody)
  | getInfo
  | deletePerson (id : String)
  | getHealth
  | unmatched
  deriving DecidableEq, Repr

/-- Response payloads: `{error: msg}`, one entity, an array of entities, the HTML of
`/info` (its count; the timestamp is not modelled), the `/health` object (its
`database` field), and the empty body of `res.status(204).end()`. -/
inductive Body where
  | error (msg : String)
  | person (p : Person)
  | persons (ps : List Person)
  | infoPage (count : Nat)
  | health (database : Nat)
  | empty
  deriving DecidableEq, Repr

/-- An HTTP response: status code and payload. -/
structure Response where
  status : Nat
  body : Body
  deriving DecidableEq, Repr

/-- What a handler does with the request: write a response, or call `next(err)`. -/
inductive Outcome where
  | respond (r : Response)
  | next (err : JsError)
  deriving DecidableEq, Repr

/-- A call made on the `Person` model, with its arguments. -/
inductive DbCall where
  | find
  | findById (id : String)
  | findOne (name : JsVal)
  | save (name number : JsVal)
  | findByIdAndUpdate (id : String) (name number : JsVal)
  | findByIdAndDelete (id : String)
  | countDocuments
  deriving DecidableEq, Repr

/-- The operations of the `Person` model used by `src/index.js`, over a store of type
`σ`. Each either yields a value or raises a `JsError`; the three writing operations
also return the store they leave behind. `save name number` is
`new Person({ name, number }).save()`, and `findByIdAndUpdate id name number` is the
call with `{ name, number }` and the options `new`, `runValidators`, `context`. -/
structure Persistence (σ : Type) where
  find : σ → Except JsError (List Person)
  findById : String → σ → Except JsError (Option Person)
  findOne : JsVal → σ → Except JsError (Option Person)
  save : JsVal → JsVal → σ → Except JsError Person × σ
  findByIdAndUpdate : String → JsVal → JsVal → σ → Except JsError (Option Person) × σ
  findByIdAndDelete : String → σ → Except JsError (Option Person) × σ
  countDocuments : σ → Except JsError Nat
  readyState : σ → Nat

/-- The result of handling one request. -/
structure Result (σ : Type) where
  outcome : Outcome
  store : σ
  calls : List DbCall

/-! ## The route handlers -/

variable {σ : Type}

/-- Handler of `app.get('/api/persons')`, lines 25-33. -/
def getPersons (db : Persistence σ) (st : σ) : Result σ :=
  match db.find st with
  | .ok persons => ⟨.respond ⟨200, .persons persons⟩, st, [.find]⟩
  | .error err => ⟨.next err, st, [.find]⟩

/-- Handler of `app.get('/api/persons/:id')`, lines 34-46. -/
def getPerson (db : Persistence σ) (id : String) (st : σ) : Result σ :=
  match db.findById id st with
  | .ok person =>
    match person with
    | none => ⟨.respond ⟨404, .error "Person not found"⟩, st, [.findById id]⟩
    | some p => ⟨.respond ⟨200, .person p⟩, st, [.findById id]⟩
  | .error error => ⟨.next error, st, [.findById id]⟩

/-- Handler of `app.post('/api/persons')`, lines 48-68. -/
def postPerson (db : Persistence σ) (body : ReqBody) (st : σ) : Result σ :=
  let name := body.name
  let number := body.number
  if !name.truthy || !number.truthy then
    ⟨.respond ⟨400, .error "Name and number are required"⟩, st, []⟩
  else
    match db.findOne name st with
    | .error err => ⟨.next err, st, [.findOne name]⟩
    | .ok existingPerson =>
      if existingPerson.isSome then
        ⟨.respond ⟨409, .error "Name already exists"⟩, st, [.findOne name]⟩
      else
        match db.save name number st with
        | (.error err, st1) => ⟨.next err, st1, [.findOne name, .save name number]⟩
        | (.ok savedPerson, st1) =>
          ⟨.respond ⟨201, .person savedPerson⟩, st1, [.findOne name, .save name number]⟩

/-- Handler of `app.put('/api/persons/:id')`, lines 71-93. -/
def putPerson (db : Persistence σ) (id : String) (body : ReqBody) (st : σ) : Result σ :=
  let name := body.name
  let number := body.number
  if !name.truthy || !number.truthy then
    ⟨.respond ⟨400, .error "Name and number are required"⟩, st, []⟩
  else
    match db.findByIdAndUpdate id name number st with
    | (.error error, st1) => ⟨.next error, st1, [.findByIdAndUpdate id name number]⟩
    | (.ok updatedPerson, st1) =>
      match updatedPerson with
      | none =>
        ⟨.respond ⟨404, .error "Person not found"⟩, st1, [.findByIdAndUpdate id name number]⟩
      | some p => ⟨.respond ⟨200, .person p⟩, st1, [.findByIdAndUpdate id name number]⟩

/-- Handler of `app.get('/info')`, lines 95-105. -/
def getInfo (db : Persistence σ) (st : σ) : Result σ :=
  match db.countDocuments st with
  | .ok count => ⟨.respond ⟨200, .infoPage count⟩, st, [.countDocuments]⟩
  | .error err => ⟨.next err, st, [.countDocuments]⟩

/-- Handler of `app.delete('/api/persons/:id')`, lines 109-121. -/
def deletePerson (db : Persistence σ) (id : String) (st : σ) : Result σ :=
  match db.findByIdAndDelete id st with
  | (.error err, st1) => ⟨.next err, st1, [.findByIdAndDelete id]⟩
  | (.ok deletedPerson, st1) =>
    match deletedPerson with
    | none => ⟨.respond ⟨404, .error "Person not found"⟩, st1, [.findByIdAndDelete id]⟩
    | some _ => ⟨.respond ⟨204, .empty⟩, st1, [.findByIdAndDelete id]⟩

/-- Handler of `app.get('/health')`, lines 124-129. -/
def getHealth (db : Persistence σ) (st : σ) : Result σ :=
  ⟨.respond ⟨200, .health (db.readyState st)⟩, st, []⟩

/-- The unknown-endpoint middleware, lines 132-134. -/
def unknownEndpoint (st : σ) : Result σ :=
  ⟨.respond ⟨404, .error "Unknown endpoint"⟩, st, []⟩

/-- The middleware `errorHandler`, lines 137-147. The result `.next err` is the final `next(err)`:
the error goes on to the framework's fallback handler and this layer writes nothing. -/
def errorHandler (err : JsError) : Outcome :=
  if err.name = "CastError" ∧ err.kind = some "ObjectId" then
    .respond ⟨400, .error "Malformatted ID"⟩
  else if err.name = "ValidationError" then
    .respond ⟨400, .error err.message⟩
  else
    .next err

/-- The handler selected for a request, before error handling. -/
def route (db : Persistence σ) (req : Request) (st : σ) : Result σ :=
  match req with
  | .getPersons => getPersons db st
  | .getPerson id => getPerson db id st
  | .postPerson body => postPerson db body st
  | .putPerson id body => putPerson db id body st
  | .getInfo => getInfo db st
  | .deletePerson id => deletePerson db id st
  | .getHealth => getHealth db st
  | .unmatched => unknownEndpoint st

/-- The application: the route handler, and `errorHandler` (registered last with
`app.use`, line 149) on whatever the handler passed to `next`. -/
def app (db : Persistence σ) (req : Request) (st : σ) : Result σ :=
  let r := route db req st
  match r.outcome with
  | .respond _ => r
  | .next err => { r with outcome := errorHandler err }

/-- Requests handled one at a time, each on the store left by the previous one:
the final store, and the outcomes in order. -/
def run (db : Persistence σ) : List Request → σ → List Outcome × σ
  | [], st => ([], st)
  | req :: rest, st =>
    let r := app db req st
    let (outs, st1) := run db rest r.store
    (r.outcome :: outs, st1)

/-! ## The `Person` collection

The model file `models/person` and the document store behind it are not part of
`src/`. The store is modelled as the list of stored entities, in insertion order. -/

/-- Modelled from the spec: the lowercase hexadecimal digit of `d` (for `d < 16`), used
to write identifiers. -/
def hexDigit (d : Nat) : Char :=
  match d with
  | 0 => '0' | 1 => '1' | 2 => '2' | 3 => '3' | 4 => '4' | 5 => '5' | 6 => '6' | 7 => '7'
  | 8 => '8' | 9 => '9' | 10 => 'a' | 11 => 'b' | 12 => 'c' | 13 => 'd' | 14 => 'e'
  | 15 => 'f' | _ => '0'

/-- Modelled from the spec: the `k` low hexadecimal digits of `n`, most significant
first. -/
def hexChars : Nat → Nat → List Char
  | 0, _ => []
  | k + 1, n => hexChars k (n / 16) ++ [hexDigit (n % 16)]

/-- Modelled from the spec: the text of an identifier assigned by the persistence
layer (the `id` of a `Person`). An ObjectId is a 12-byte value, written as 24
lowercase hexadecimal digits. -/
def ObjectId.toHex (n : Nat) : String :=
  String.mk (hexChars 24 n)

/-- Modelled from the spec: a hexadecimal digit in its lowercase form; `none` for any
other character. -/
def canonHex (c : Char) : Option Char :=
  match c with
  | '0' => some '0' | '1' => some '1' | '2' => some '2' | '3' => some '3'
  | '4' => some '4' | '5' => some '5' | '6' => some '6' | '7' => some '7'
  | '8' => some '8' | '9' => some '9'
  | 'a' => some 'a' | 'b' => some 'b' | 'c' => some 'c' | 'd' => some 'd'
  | 'e' => some 'e' | 'f' => some 'f'
  | 'A' => some 'a' | 'B' => some 'b' | 'C' => some 'c' | 'D' => some 'd'
  | 'E' => some 'e' | 'F' => some 'f'
  | _ => none

/-- Modelled from the spec: all characters as lowercase hexadecimal digits, or `none`
if one is not a digit. -/
def canonHexAll : List Char → Option (List Char)
  | [] => some []
  | c :: cs =>
    match canonHex c, canonHexAll cs with
    | some d, some ds => some (d :: ds)
    | _, _ => none

/-- Modelled from the spec: the persistence layer's identifier format check
("malformed identifier" in the glossary). A request identifier is well formed when
it is 24 hexadecimal digits; the result is the identifier it denotes. -/
def castObjectId (id : String) : Option String :=
  if id.toList.length = 24 then (canonHexAll id.toList).map String.mk else none

/-- Modelled from the spec: what the spec leaves open about the persistence layer,
taken as a parameter. `genId` is the value of the identifier given to a new document
(any function of the current contents), `castOther` is how a body value that is not
text becomes the text of a field or of a name filter, or is rejected. -/
structure Driver where
  genId : List Person → Nat
  castOther : JsVal → Except JsError String

/-- Modelled from the spec: the text stored or searched for a body value; a string is
taken as it is. -/
def Driver.castString (D : Driver) : JsVal → Except JsError String
  | .str s => .ok s
  | v => D.castOther v

/-- Modelled from the spec: the validation rules of the missing entity schema
`models/person`. `name` and `number` are non-empty text, with no format validation
beyond non-emptiness. The result is the validation message, `none` when valid. -/
def validatePerson (name number : String) : Option String :=
  if name = "" then some "Person validation failed: name is required"
  else if number = "" then some "Person validation failed: number is required"
  else none

/-- Modelled from the spec: the error raised for a malformed identifier, which
`errorHandler` recognises by `name` and `kind`. -/
def castErrorObjectId (id : String) : JsError :=
  ⟨"CastError", some "ObjectId", "Cast to ObjectId failed for value " ++ id⟩

/-- Modelled from the spec: the error raised when entity validation fails, carrying
the validation message. -/
def validationError (msg : String) : JsError :=
  ⟨"ValidationError", none, msg⟩

/-- Modelled from the spec: the error raised by the store when an inserted identifier
is already in use (identifiers are unique). -/
def duplicateKeyError : JsError :=
  ⟨"MongoServerError", none, "E11000 duplicate key error"⟩

/-- Modelled from the spec: the first entity with identifier `oid` gets the new `name`
and `number`; its `id` and every other entity stay as they are. -/
def updateFirst (oid name number : String) : List Person → List Person
  | [] => []
  | p :: ps =>
    if p.id = oid then { p with name := name, number := number } :: ps
    else p :: updateFirst oid name number ps

/-- Modelled from the spec: `Person.findById`. A malformed identifier is an error;
otherwise the entity with that identifier, if any. -/
def memFindById (id : String) (st : List Person) : Except JsError (Option Person) :=
  match castObjectId id with
  | none => .error (castErrorObjectId id)
  | some oid => .ok (st.find? (fun p => p.id == oid))

/-- Modelled from the spec: `Person.findOne({ name })`, the first entity with that name. -/
def memFindOne (D : Driver) (name : JsVal) (st : List Person) :
    Except JsError (Option Person) :=
  match D.castString name with
  | .error e => .error e
  | .ok n => .ok (st.find? (fun p => p.name == n))

/-- Modelled from the spec: `new Person({ name, number }).save()`. The document gets
its identifier on construction, is validated, and is inserted at the end of the
collection; an identifier already in use is refused by the store. -/
def memSave (D : Driver) (name number : JsVal) (st : List Person) :
    Except JsError Person × List Person :=
  match D.castString name with
  | .error e => (.error e, st)
  | .ok n =>
    match D.castString number with
    | .error e => (.error e, st)
    | .ok m =>
      match validatePerson n m with
      | some msg => (.error (validationError msg), st)
      | none =>
        let p : Person := ⟨ObjectId.toHex (D.genId st), n, m⟩
        if st.any (fun q => q.id == p.id) then (.error duplicateKeyError, st)
        else (.ok p, st ++ [p])

/-- Modelled from the spec: `Person.findByIdAndUpdate` with `new`, `runValidators`.
The identifier is checked, the new fields are validated as at creation, then the
matching entity, if any, has `name` and `number` overwritten and is returned. -/
def memFindByIdAndUpdate (D : Driver) (id : String) (name number : JsVal)
    (st : List Person) : Except JsError (Option Person) × List Person :=
  match castObjectId id with
  | none => (.error (castErrorObjectId id), st)
  | some oid =>
    match D.castString name with
    | .error e => (.error e, st)
    | .ok n =>
      match D.castString number with
      | .error e => (.error e, st)
      | .ok m =>
        match validatePerson n m with
        | some msg => (.error (validationError msg), st)
        | none =>
          match st.find? (fun p => p.id == oid) with
          | none => (.ok none, st)
          | some p =>
            (.ok (some { p with name := n, number := m }), updateFirst oid n m st)

/-- Modelled from the spec: `Person.findByIdAndDelete`. The matching entity, if any,
is removed and returned. -/
def memFindByIdAndDelete (id : String) (st : List Person) :
    Except JsError (Option Person) × List Person :=
  match castObjectId id with
  | none => (.error (castErrorObjectId id), st)
  | some oid =>
    match st.find? (fun p => p.id == oid) with
    | none => (.ok none, st)
    | some p => (.ok (some p), st.eraseP (fun q => q.id == oid))

/-- Modelled from the spec: the `Person` model over the in-memory collection. -/
def memDb (D : Driver) : Persistence (List Person) where
  find := fun st => .ok st
  findById := memFindById
  findOne := memFindOne D
  save := memSave D
  findByIdAndUpdate := memFindByIdAndUpdate D
  findByIdAndDelete := memFindByIdAndDelete
  countDocuments := fun st => .ok st.length
  readyState := fun _ => 1

/-- Modelled from the spec: a sample identifier source, the first value whose
identifier text is not in the collection. -/
def firstFreeId (st : List Person) : Nat :=
  ((List.range (st.length + 1)).find? (fun n => !st.any (fun q => q.id == ObjectId.toHex n))).getD 0

/-- Modelled from the spec: a sample driver. Identifiers are handed out in order,
numbers and booleans are stored as their text, `undefined` and `null` leave the field
empty, and arrays and objects are rejected. -/
def sampleDriver : Driver where
  genId := firstFreeId
  castOther := fun v =>
    match v with
    | .num n => .ok (toString n)
    | .bool b => .ok (toString b)
    | .str s => .ok s
    | .undefined => .ok ""
    | .null => .ok ""
    | .object => .error ⟨"CastError", some "string", "Cast to string failed"⟩

/-- No two stored entities have the same `name`. -/
def NamesUnique (st : List Person) : Prop :=
  (st.map (fun p => p.name)).Nodup

/-- No two stored entities have the same `id`. -/
def IdsUnique (st : List Person) : Prop :=
  (st.map (fun p => p.id)).Nodup

instance (st : List Person) : Decidable (NamesUnique st) := by
  unfold NamesUnique; infer_instance

instance (st : List Person) : Decidable (IdsUnique st) := by
  unfold IdsUnique; infer_instance

/-! ## Identifier text -/

theorem hexChars_length (k n : Nat) : (hexChars k n).length = k := by
  induction k generalizing n with
  | zero => rfl
  | succ k ih => simp [hexChars, ih]

theorem canonHex_hexDigit (d : Nat) (h : d < 16) :
    canonHex (hexDigit d) = some (hexDigit d) := by
  interval_cases d <;> rfl

theorem canonHexAll_append_singleton (xs : List Char) (c : Char)
    (hxs : canonHexAll xs = some xs) (hc : canonHex c = some c) :
    canonHexAll (xs ++ [c]) = some (xs ++ [c]) := by
  induction xs with
  | nil => simp [canonHexAll, hc]
  | cons x xs ih =>
    simp only [canonHexAll, List.cons_append] at hxs ⊢
    cases hx : canonHex x with
    | none => simp [hx] at hxs
    | some d =>
      cases hr : canonHexAll xs with
      | none => simp [hx, hr] at hxs
      | some ds =>
        simp only [hx, hr, Option.some.injEq, List.cons.injEq] at hxs
        obtain ⟨rfl, rfl⟩ := hxs
        simp [ih hr]

theorem canonHexAll_hexChars (k n : Nat) : canonHexAll (hexChars k n) = some (hexChars k n) := by
  induction k generalizing n with
  | zero => rfl
  | succ k ih => exact canonHexAll_append_singleton _ _ (ih _) (canonHex_hexDigit _ (Nat.mod_lt _ (by decide)))

/-- The text of an assigned identifier is a well-formed identifier denoting itself. -/
theorem castObjectId_toHex (n : Nat) :
    castObjectId (ObjectId.toHex n) = some (ObjectId.toHex n) := by
  simp [castObjectId, ObjectId.toHex, hexChars_length, canonHexAll_hexChars]

/-- The text of an assigned identifier has 24 characters. -/
theorem toHex_length (n : Nat) : (ObjectId.toHex n).length = 24 := by
  simp [ObjectId.toHex, String.length, hexChars_length]

theorem toHex_ne_empty (n : Nat) : ObjectId.toHex n ≠ "" := by
  intro h
  have := toHex_length n
  rw [h] at this
  simp at this

/-! ## Basic facts about the handlers and the collection -/

/-- The falsy body values: absent, `null`, `false`, zero and the empty string. -/
theorem JsVal.truthy_eq_false_iff (v : JsVal) :
    v.truthy = false ↔
      v = .undefined ∨ v = .null ∨ v = .bool false ∨ v = .num 0 ∨ v = .str "" := by
  cases v <;> simp [JsVal.truthy]

theorem JsVal.truthy_str (s : String) : (JsVal.str s).truthy = true ↔ s ≠ "" := by
  simp [JsVal.truthy]

theorem validatePerson_eq_none {n m : String} (hn : n ≠ "") (hm : m ≠ "") :
    validatePerson n m = none := by
  simp [validatePerson, hn, hm]

theorem find?_id_eq_none {st : List Person} {oid : String} (h : ∀ p ∈ st, p.id ≠ oid) :
    st.find? (fun p => p.id == oid) = none := by
  simp only [List.find?_eq_none]
  intro p hp
  simpa using h p hp

theorem find?_name_eq_none {st : List Person} {n : String} (h : ∀ p ∈ st, p.name ≠ n) :
    st.find? (fun p => p.name == n) = none := by
  simp only [List.find?_eq_none]
  intro p hp
  simpa using h p hp

theorem find?_name_isSome {st : List Person} {n : String} (h : ∃ p ∈ st, p.name = n) :
    (st.find? (fun p => p.name == n)).isSome = true := by
  obtain ⟨p, hp, hpn⟩ := h
  rw [List.find?_isSome]
  exact ⟨p, hp, by simpa using hpn⟩

/-- With distinct identifiers, looking an identifier up finds the entity that has it. -/
theorem find?_id_of_mem {st : List Person} {p : Person} (hu : IdsUnique st) (hp : p ∈ st) :
    st.find? (fun q => q.id == p.id) = some p := by
  induction st with
  | nil => cases hp
  | cons a st ih =>
    unfold IdsUnique at hu
    simp only [List.map_cons, List.nodup_cons, List.mem_map, not_exists, not_and] at hu
    rcases List.mem_cons.mp hp with rfl | hmem
    · simp
    · have hne : a.id ≠ p.id := fun h => hu.1 p hmem h.symm
      have hb : (a.id == p.id) = false := by simpa using hne
      rw [List.find?_cons, hb]
      exact ih hu.2 hmem

/-- With distinct identifiers, overwriting the first match is overwriting the match. -/
theorem updateFirst_eq_map {st : List Person} (oid n m : String) (hu : IdsUnique st) :
    updateFirst oid n m st
      = st.map (fun q => if q.id = oid then (⟨q.id, n, m⟩ : Person) else q) := by
  induction st with
  | nil => rfl
  | cons a st ih =>
    unfold IdsUnique at hu
    simp only [List.map_cons, List.nodup_cons, List.mem_map, not_exists, not_and] at hu
    by_cases ha : a.id = oid
    · have hrest : ∀ q ∈ st, q.id ≠ oid := fun q hq h => hu.1 q hq (h.trans ha.symm)
      have hmap : st.map (fun q => if q.id = oid then (⟨q.id, n, m⟩ : Person) else q) = st := by
        conv_rhs => rw [← List.map_id st]
        apply List.map_congr_left
        intro q hq
        simp [hrest q hq]
      simp [updateFirst, ha, hmap]
    · simp [updateFirst, ha, ih hu.2]

/-- With distinct identifiers, removing the first match removes every match. -/
theorem eraseP_id_eq_filter {st : List Person} (oid : String) (hu : IdsUnique st) :
    st.eraseP (fun q => q.id == oid) = st.filter (fun q => q.id != oid) := by
  induction st with
  | nil => rfl
  | cons a st ih =>
    unfold IdsUnique at hu
    simp only [List.map_cons, List.nodup_cons, List.mem_map, not_exists, not_and] at hu
    by_cases ha : a.id = oid
    · have hrest : ∀ q ∈ st, q.id ≠ oid := fun q hq h => hu.1 q hq (h.trans ha.symm)
      have hfil : st.filter (fun q => q.id != oid) = st := by
        rw [List.filter_eq_self]
        intro q hq
        simpa using hrest q hq
      simp [ha, hfil]
    · have hb : (a.id == oid) = false := by simpa using ha
      rw [List.eraseP_cons, List.filter_cons]
      simp only [hb, cond_false, bne, Bool.not_false, if_true]
      have := ih hu.2
      simp only [bne] at this
      rw [this]

/-- Overwriting `name` and `number` keeps the identifiers, in order. -/
theorem map_update_ids (st : List Person) (oid n m : String) :
    (st.map (fun q => if q.id = oid then (⟨q.id, n, m⟩ : Person) else q)).map (fun p => p.id)
      = st.map (fun p => p.id) := by
  rw [List.map_map]
  apply List.map_congr_left
  intro q _
  by_cases h : q.id = oid <;> simp [h]

/-! ## Name uniqueness, request by request -/

/-- What `save` leaves behind: the store as it was, or one more entity at its end,
with an identifier that no stored entity has. -/
theorem memSave_store (D : Driver) (name number : JsVal) (st : List Person) :
    (memSave D name number st).2 = st ∨
      ∃ p : Person, D.castString name = .ok p.name ∧ (∀ q ∈ st, q.id ≠ p.id) ∧
        (memSave D name number st).2 = st ++ [p] := by
  cases hc : D.castString name with
  | error e => left; simp [memSave, hc]
  | ok n =>
    cases hc2 : D.castString number with
    | error e => left; simp [memSave, hc, hc2]
    | ok m =>
      cases hv : validatePerson n m with
      | some msg => left; simp [memSave, hc, hc2, hv]
      | none =>
        by_cases hany : (st.any (fun q => q.id == ObjectId.toHex (D.genId st))) = true
        · left
          simp only [memSave, hc, hc2, hv, hany, if_true]
        · right
          refine ⟨⟨ObjectId.toHex (D.genId st), n, m⟩, rfl, ?_, ?_⟩
          · intro q hq hid
            apply hany
            simp only [List.any_eq_true, beq_iff_eq]
            exact ⟨q, hq, hid⟩
          · simp only [memSave, hc, hc2, hv, hany, if_false]
            simp

/-- A create request keeps the names distinct, whatever its body. -/
theorem create_preserves_names_unique (D : Driver) (body : ReqBody) (st : List Person)
    (h : NamesUnique st) : NamesUnique (app (memDb D) (.postPerson body) st).store := by
  have hstore : (app (memDb D) (.postPerson body) st).store
      = (postPerson (memDb D) body st).store := by
    simp only [app, route]
    split <;> rfl
  rw [hstore]
  simp only [postPerson]
  split
  · exact h
  · cases hfo : (memDb D).findOne body.name st with
    | error e => exact h
    | ok existing =>
      cases existing with
      | some q => exact h
      | none =>
        simp only [Option.isSome_none, Bool.false_eq_true, if_false]
        have hs : ((memDb D).save body.name body.number st).2 = st ∨
            ∃ p : Person, D.castString body.name = .ok p.name ∧ (∀ q ∈ st, q.id ≠ p.id) ∧
              ((memDb D).save body.name body.number st).2 = st ++ [p] :=
          memSave_store D body.name body.number st
        rcases hr : (memDb D).save body.name body.number st with ⟨res, st1⟩
        rw [hr] at hs
        simp only at hs
        have hgoal : NamesUnique st1 := by
          rcases hs with hs | ⟨p, hp, _, hs⟩
          · rw [hs]
            exact h
          · rw [hs]
            simp only [memDb, memFindOne, hp] at hfo
            have hf : st.find? (fun q => q.name == p.name) = none := by
              injection hfo
            unfold NamesUnique at h ⊢
            rw [List.map_append, List.nodup_append]
            refine ⟨h, by simp, ?_⟩
            intro x hx hx2
            simp only [List.map_cons, List.map_nil, List.mem_singleton] at hx2
            obtain ⟨q, hq, hqn⟩ := List.mem_map.mp hx
            rw [List.find?_eq_none] at hf
            exact hf q hq (by simpa using hqn.trans hx2)
        cases res <;> exact hgoal

/-- A delete request keeps the names distinct. -/
theorem delete_preserves_names_unique (D : Driver) (id : String) (st : List Person)
    (h : NamesUnique st) : NamesUnique (app (memDb D) (.deletePerson id) st).store := by
  have hstore : (app (memDb D) (.deletePerson id) st).store
      = (deletePerson (memDb D) id st).store := by
    simp only [app, route]
    split <;> rfl
  rw [hstore]
  simp only [deletePerson, memDb, memFindByIdAndDelete]
  cases hc : castObjectId id with
  | none => exact h
  | some oid =>
    simp only
    cases hf : st.find? (fun p => p.id == oid) with
    | none => exact h
    | some q =>
      simp only
      unfold NamesUnique at h ⊢
      exact List.Nodup.sublist ((List.eraseP_sublist st).map _) h

/-- An update request keeps the names distinct when no other entity has the new name. -/
theorem update_preserves_names_unique_of_fresh (D : Driver) (id oid n m : String)
    (st : List Person) (h : NamesUnique st) (hu : IdsUnique st)
    (hid : castObjectId id = some oid) (hfresh : ∀ q ∈ st, q.id ≠ oid → q.name ≠ n) :
    NamesUnique (app (memDb D) (.putPerson id ⟨.str n, .str m⟩) st).store := by
  have hstore : (app (memDb D) (.putPerson id ⟨.str n, .str m⟩) st).store
      = (putPerson (memDb D) id ⟨.str n, .str m⟩ st).store := by
    simp only [app, route]
    split <;> rfl
  rw [hstore]
  simp only [putPerson, memDb, memFindByIdAndUpdate, Driver.castString, hid]
  split
  · exact h
  · cases hv : validatePerson n m with
    | some msg => exact h
    | none =>
      simp only
      cases hf : st.find? (fun p => p.id == oid) with
      | none => exact h
      | some q =>
        simp only
        rw [updateFirst_eq_map oid n m hu]
        clear hf hstore
        induction st with
        | nil => exact h
        | cons a st ih =>
          unfold NamesUnique at h ih ⊢
          unfold IdsUnique at hu ih
          simp only [List.map_cons, List.nodup_cons, List.mem_map, not_exists, not_and] at h hu ⊢
          refine ⟨?_, ih h.2 hu.2 (fun q hq => hfresh q (List.mem_cons_of_mem _ hq))⟩
          rintro x ⟨y, hy, rfl⟩ hxa
          by_cases ha : a.id = oid
          · have hy1 : y.id ≠ oid := fun hyo => hu.1 y hy (hyo.trans ha.symm)
            simp [ha, hy1] at hxa
            exact hfresh y (List.mem_cons_of_mem _ hy) hy1 hxa
          · by_cases hyo : y.id = oid
            · simp [ha, hyo] at hxa
              exact hfresh a (List.mem_cons_self _ _) ha hxa.symm
            · simp [ha, hyo] at hxa
              exact h.1 y hy hxa

/-! ## Distinct identifiers, request by request -/

/-- Error handling changes the outcome of a request only. -/
theorem app_store {σ : Type} (db : Persistence σ) (req : Request) (st : σ) :
    (app db req st).store = (route db req st).store := by
  simp only [app]
  split <;> rfl

/-- Overwriting `name` and `number` of the first match keeps the identifiers. -/
theorem updateFirst_ids (oid n m : String) (st : List Person) :
    (updateFirst oid n m st).map (fun p => p.id) = st.map (fun p => p.id) := by
  induction st with
  | nil => rfl
  | cons a st ih =>
    by_cases ha : a.id = oid
    · simp [updateFirst, ha]
    · simp [updateFirst, ha, ih]

/-- The stored identifiers stay distinct under every request: the hypothesis
`IdsUnique` of the statements below holds in every store reached from the empty one. -/
theorem app_preserves_ids_unique (D : Driver) (req : Request) (st : List Person)
    (h : IdsUnique st) : IdsUnique (app (memDb D) req st).store := by
  rw [app_store]
  cases req with
  | getPersons => simp only [route, getPersons]; split <;> exact h
  | getPerson id => simp only [route, getPerson]; split <;> (try split) <;> exact h
  | getInfo => simp only [route, getInfo]; split <;> exact h
  | getHealth => exact h
  | unmatched => exact h
  | postPerson body =>
    simp only [route, postPerson]
    split
    · exact h
    · cases hfo : (memDb D).findOne body.name st with
      | error e => exact h
      | ok existing =>
        cases existing with
        | some q => exact h
        | none =>
          simp only [Option.isSome_none, Bool.false_eq_true, if_false]
          have hs : ((memDb D).save body.name body.number st).2 = st ∨
              ∃ p : Person, D.castString body.name = .ok p.name ∧ (∀ q ∈ st, q.id ≠ p.id) ∧
                ((memDb D).save body.name body.number st).2 = st ++ [p] :=
            memSave_store D body.name body.number st
          rcases hr : (memDb D).save body.name body.number st with ⟨res, st1⟩
          rw [hr] at hs
          simp only at hs
          have hgoal : IdsUnique st1 := by
            rcases hs with hs | ⟨p, _, hfresh, hs⟩
            · rw [hs]
              exact h
            · rw [hs]
              unfold IdsUnique at h ⊢
              rw [List.map_append, List.nodup_append]
              refine ⟨h, by simp, ?_⟩
              intro x hx hx2
              simp only [List.map_cons, List.map_nil, List.mem_singleton] at hx2
              obtain ⟨q, hq, hqn⟩ := List.mem_map.mp hx
              exact hfresh q hq (hqn.trans hx2)
          cases res <;> exact hgoal
  | putPerson id body =>
    simp only [route, putPerson]
    split
    · exact h
    · have hs : ((memDb D).findByIdAndUpdate id body.name body.number st).2.map (fun p => p.id)
          = st.map (fun p => p.id) := by
        simp only [memDb, memFindByIdAndUpdate]
        split
        · rfl
        · split
          · rfl
          · split
            · rfl
            · split
              · rfl
              · split
                · rfl
                · exact updateFirst_ids _ _ _ _
      rcases hr : (memDb D).findByIdAndUpdate id body.name body.number st with ⟨res, st1⟩
      rw [hr] at hs
      simp only at hs
      have hgoal : IdsUnique st1 := by
        unfold IdsUnique at h ⊢
        rw [hs]
        exact h
      cases res with
      | error e => exact hgoal
      | ok o => cases o <;> exact hgoal
  | deletePerson id =>
    simp only [route, deletePerson]
    have hs : (((memDb D).findByIdAndDelete id st).2.map (fun p => p.id)).Sublist
        (st.map (fun p => p.id)) := by
      simp only [memDb, memFindByIdAndDelete]
      split
      · exact List.Sublist.refl _
      · split
        · exact List.Sublist.refl _
        · exact (List.eraseP_sublist st).map _
    rcases hr : (memDb D).findByIdAndDelete id st with ⟨res, st1⟩
    rw [hr] at hs
    simp only at hs
    have hgoal : IdsUnique st1 := List.Nodup.sublist hs h
    cases res with
    | error e => exact hgoal
    | ok o => cases o <;> exact hgoal

/-- Requests handled one after another keep the stored identifiers distinct. -/
theorem run_preserves_ids_unique (D : Driver) (reqs : List Request) (st : List Person)
    (h : IdsUnique st) : IdsUnique (run (memDb D) reqs st).2 := by
  induction reqs generalizing st with
  | nil => exact h
  | cons req rest ih =>
    simp only [run]
    exact ih _ (app_preserves_ids_unique D req st h)

/-! ## Claims -/

/-- C1: a create request whose `name` or `number` is falsy (absent, `null`, `false`,
zero or the empty string) is answered 400 `Name and number are required`, whatever
the persistence layer and the store; no persistence operation is called and the
store is unchanged. -/
theorem create_missing_field_rejected {σ : Type} (db : Persistence σ) (body : ReqBody)
    (st : σ) (h : body.name.truthy = false ∨ body.number.truthy = false) :
    (app db (.postPerson body) st).outcome
        = .respond ⟨400, .error "Name and number are required"⟩ ∧
      (app db (.postPerson body) st).calls = [] ∧
      (app db (.postPerson body) st).store = st := by
  have hg : (!body.name.truthy || !body.number.truthy) = true := by
    rcases h with h | h <;> simp [h]
  simp [app, route, postPerson, hg]

theorem create_missing_field_rejected_witness :
    ((JsVal.str "").truthy = false ∨ (JsVal.str "123").truthy = false) ∧
      (app (memDb sampleDriver) (.postPerson ⟨.str "", .str "123"⟩)
          [⟨ObjectId.toHex 7, "Bob", "456"⟩]).outcome
        = .respond ⟨400, .error "Name and number are required"⟩ :=
  ⟨by decide,
    (create_missing_field_rejected (memDb sampleDriver) ⟨.str "", .str "123"⟩
      [⟨ObjectId.toHex 7, "Bob", "456"⟩] (by decide)).1⟩

/-- C2: a create request with a non-empty `name` and a truthy `number`, when the
store holds an entity with that name, is answered 409 `Name already exists`; the
only persistence call is the `findOne` lookup (`save` is never called) and the store
is unchanged. -/
theorem create_duplicate_name_conflict (D : Driver) (st : List Person) (n : String)
    (number : JsVal) (hn : n ≠ "") (hnum : number.truthy = true)
    (hex : ∃ p ∈ st, p.name = n) :
    (app (memDb D) (.postPerson ⟨.str n, number⟩) st).outcome
        = .respond ⟨409, .error "Name already exists"⟩ ∧
      (app (memDb D) (.postPerson ⟨.str n, number⟩) st).calls = [.findOne (.str n)] ∧
      (∀ a b, DbCall.save a b ∉ (app (memDb D) (.postPerson ⟨.str n, number⟩) st).calls) ∧
      (app (memDb D) (.postPerson ⟨.str n, number⟩) st).store = st := by
  have hs := find?_name_isSome hex
  have hn2 : (JsVal.str n).truthy = true := (JsVal.truthy_str n).2 hn
  simp [app, route, postPerson, memDb, memFindOne, Driver.castString, hn2, hnum, hs]

theorem create_duplicate_name_conflict_witness :
    ("Ada" ≠ "" ∧ (JsVal.str "999").truthy = true ∧
        ∃ p ∈ [(⟨ObjectId.toHex 0, "Ada", "123"⟩ : Person)], p.name = "Ada") ∧
      (app (memDb sampleDriver) (.postPerson ⟨.str "Ada", .str "999"⟩)
          [⟨ObjectId.toHex 0, "Ada", "123"⟩]).store = [⟨ObjectId.toHex 0, "Ada", "123"⟩] :=
  ⟨⟨by decide, by decide, ⟨_, List.mem_singleton.mpr rfl, rfl⟩⟩,
    (create_duplicate_name_conflict sampleDriver [⟨ObjectId.toHex 0, "Ada", "123"⟩] "Ada"
      (.str "999") (by decide) (by decide) ⟨_, List.mem_singleton.mpr rfl, rfl⟩).2.2.2⟩

/-- C3: a create request with non-empty text `name` and `number`, when no stored
entity has that name and the persistence `save` succeeds, is answered 201 with the
saved entity, which carries the requested name and number and a non-empty assigned
identifier that no previous entity has; the resulting store is the previous
entities followed by that one entity, so its size grows by exactly one. -/
theorem create_valid_persists (D : Driver) (st : List Person) (n m : String)
    (saved : Person) (st1 : List Person) (hn : n ≠ "") (hm : m ≠ "")
    (hfree : ∀ p ∈ st, p.name ≠ n)
    (hsave : (memDb D).save (.str n) (.str m) st = (.ok saved, st1)) :
    (app (memDb D) (.postPerson ⟨.str n, .str m⟩) st).outcome
        = .respond ⟨201, .person saved⟩ ∧
      saved.name = n ∧ saved.number = m ∧ saved.id ≠ "" ∧
      (∀ q ∈ st, q.id ≠ saved.id) ∧
      (app (memDb D) (.postPerson ⟨.str n, .str m⟩) st).store = st ++ [saved] ∧
      (app (memDb D) (.postPerson ⟨.str n, .str m⟩) st).store.length = st.length + 1 := by
  have hn2 : (JsVal.str n).truthy = true := (JsVal.truthy_str n).2 hn
  have hm2 : (JsVal.str m).truthy = true := (JsVal.truthy_str m).2 hm
  have hnone := find?_name_eq_none hfree
  have hsave2 := hsave
  simp only [memDb, memSave, Driver.castString, validatePerson_eq_none hn hm] at hsave2
  split at hsave2
  · simp at hsave2
  · rename_i hany
    simp only [Prod.mk.injEq, Except.ok.injEq] at hsave2
    obtain ⟨rfl, rfl⟩ := hsave2
    have hfresh : ∀ q ∈ st, q.id ≠ ObjectId.toHex (D.genId st) := by
      intro q hq hid
      apply hany
      simp only [List.any_eq_true, beq_iff_eq]
      exact ⟨q, hq, hid⟩
    refine ⟨?_, rfl, rfl, toHex_ne_empty _, hfresh, ?_, ?_⟩ <;>
      simp [app, route, postPerson, hn2, hm2, hsave,
        show (memDb D).findOne (.str n) st = .ok none from by
          simp [memDb, memFindOne, Driver.castString, hnone]]

theorem create_valid_persists_witness :
    ("Eve" ≠ "" ∧ "789" ≠ "" ∧
        (∀ p ∈ [(⟨ObjectId.toHex 0, "Ada", "123"⟩ : Person)], p.name ≠ "Eve") ∧
        (memDb sampleDriver).save (.str "Eve") (.str "789") [⟨ObjectId.toHex 0, "Ada", "123"⟩]
          = (.ok ⟨ObjectId.toHex 1, "Eve", "789"⟩,
              [⟨ObjectId.toHex 0, "Ada", "123"⟩, ⟨ObjectId.toHex 1, "Eve", "789"⟩])) ∧
      (app (memDb sampleDriver) (.postPerson ⟨.str "Eve", .str "789"⟩)
          [⟨ObjectId.toHex 0, "Ada", "123"⟩]).outcome
        = .respond ⟨201, .person ⟨ObjectId.toHex 1, "Eve", "789"⟩⟩ :=
  ⟨⟨by decide, by decide, by decide, rfl⟩,
    (create_valid_persists sampleDriver [⟨ObjectId.toHex 0, "Ada", "123"⟩] "Eve" "789"
      ⟨ObjectId.toHex 1, "Eve", "789"⟩
      [⟨ObjectId.toHex 0, "Ada", "123"⟩, ⟨ObjectId.toHex 1, "Eve", "789"⟩]
      (by decide) (by decide) (by decide) rfl).1⟩

/-- C10: an update request whose `name` or `number` is falsy is answered 400
`Name and number are required` for every identifier, persistence layer and store;
the decision is taken before any persistence call, the store is unchanged, and the
response is neither a 404 nor `Malformatted ID`. -/
theorem update_missing_field_rejected {σ : Type} (db : Persistence σ) (id : String)
    (body : ReqBody) (st : σ)
    (h : body.name.truthy = false ∨ body.number.truthy = false) :
    (app db (.putPerson id body) st).outcome
        = .respond ⟨400, .error "Name and number are required"⟩ ∧
      (app db (.putPerson id body) st).calls = [] ∧
      (app db (.putPerson id body) st).store = st ∧
      (∀ r, (app db (.putPerson id body) st).outcome = .respond r →
        r.status ≠ 404 ∧ r.body ≠ .error "Malformatted ID") := by
  have hg : (!body.name.truthy || !body.number.truthy) = true := by
    rcases h with h | h <;> simp [h]
  have ho : (app db (.putPerson id body) st).outcome
      = .respond ⟨400, .error "Name and number are required"⟩ := by
    simp [app, route, putPerson, hg]
  refine ⟨ho, ?_, ?_, ?_⟩
  · simp [app, route, putPerson, hg]
  · simp [app, route, putPerson, hg]
  · intro r hr
    rw [ho] at hr
    injection hr with hr
    subst hr
    exact ⟨by decide, by decide⟩

theorem update_missing_field_rejected_witness :
    ((JsVal.str "Ada").truthy = false ∨ JsVal.undefined.truthy = false) ∧
      (app (memDb sampleDriver) (.putPerson "not-an-id" ⟨.str "Ada", .undefined⟩)
          [⟨ObjectId.toHex 0, "Ada", "123"⟩]).outcome
        = .respond ⟨400, .error "Name and number are required"⟩ :=
  ⟨by decide,
    (update_missing_field_rejected (memDb sampleDriver) "not-an-id" ⟨.str "Ada", .undefined⟩
      [⟨ObjectId.toHex 0, "Ada", "123"⟩] (by decide)).1⟩

/-- C6, as amended: for a well-formed identifier that no stored entity has, get by id,
update by id with `name` and `number` that are non-empty text, and delete by id are
each answered 404 `Person not found`, and the store is unchanged. -/
theorem unknown_id_not_found (D : Driver) (st : List Person) (id oid : String)
    (hid : castObjectId id = some oid) (hno : ∀ p ∈ st, p.id ≠ oid) :
    ((app (memDb D) (.getPerson id) st).outcome = .respond ⟨404, .error "Person not found"⟩ ∧
        (app (memDb D) (.getPerson id) st).store = st) ∧
      (∀ n m : String, n ≠ "" → m ≠ "" →
        (app (memDb D) (.putPerson id ⟨.str n, .str m⟩) st).outcome
            = .respond ⟨404, .error "Person not found"⟩ ∧
          (app (memDb D) (.putPerson id ⟨.str n, .str m⟩) st).store = st) ∧
      ((app (memDb D) (.deletePerson id) st).outcome
          = .respond ⟨404, .error "Person not found"⟩ ∧
        (app (memDb D) (.deletePerson id) st).store = st) := by
  have hnone := find?_id_eq_none hno
  refine ⟨?_, ?_, ?_⟩
  · simp [app, route, getPerson, memDb, memFindById, hid, hnone]
  · intro n m hn hm
    have hn2 : (JsVal.str n).truthy = true := (JsVal.truthy_str n).2 hn
    have hm2 : (JsVal.str m).truthy = true := (JsVal.truthy_str m).2 hm
    simp [app, route, putPerson, memDb, memFindByIdAndUpdate, Driver.castString, hid, hnone,
      hn2, hm2, validatePerson_eq_none hn hm]
  · simp [app, route, deletePerson, memDb, memFindByIdAndDelete, hid, hnone]

theorem unknown_id_not_found_witness :
    (castObjectId "00000000000000000000000A" = some "00000000000000000000000a" ∧
        ∀ p ∈ [(⟨ObjectId.toHex 0, "Ada", "123"⟩ : Person)],
          p.id ≠ "00000000000000000000000a") ∧
      (app (memDb sampleDriver) (.deletePerson "00000000000000000000000A")
          [⟨ObjectId.toHex 0, "Ada", "123"⟩]).outcome
        = .respond ⟨404, .error "Person not found"⟩ :=
  ⟨⟨by decide, by decide⟩,
    (unknown_id_not_found sampleDriver [⟨ObjectId.toHex 0, "Ada", "123"⟩]
      "00000000000000000000000A" "00000000000000000000000a" (by decide) (by decide)).2.2.1⟩

/-- C6, as stated, fails for an update whose `name` is truthy but not text: with an
empty store, a well-formed identifier that matches nothing, and the body
`name: {}`, `number: "1"`, the guard of the PUT handler passes, `findByIdAndUpdate`
rejects the name with a `CastError` of kind `string`, and the request ends in
`next(err)` with that error, not in a 404 response. -/
theorem unknown_id_update_object_name_not_404 :
    castObjectId "00000000000000000000000a" = some "00000000000000000000000a" ∧
      (∀ p ∈ ([] : List Person), p.id ≠ "00000000000000000000000a") ∧
      JsVal.object.truthy = true ∧ (JsVal.str "1").truthy = true ∧
      (app (memDb sampleDriver)
          (.putPerson "00000000000000000000000a" ⟨.object, .str "1"⟩) []).outcome
        = .next ⟨"CastError", some "string", "Cast to string failed"⟩ ∧
      (app (memDb sampleDriver)
          (.putPerson "00000000000000000000000a" ⟨.object, .str "1"⟩) []).outcome
        ≠ .respond ⟨404, .error "Person not found"⟩ := by
  refine ⟨by decide, by decide, by decide, by decide, by decide, by decide⟩

/-- C7: in a store with distinct identifiers, an update of a stored entity's id with
non-empty text `name` and `number` (which the entity validation accepts) is answered
200 with the entity of the same id carrying the requested name and number; in the
resulting store exactly that entity has its name and number replaced, every id and
every other entity is unchanged, and a following get on the same id is answered 200
with the new name and number. -/
theorem update_existing_replaces_fields (D : Driver) (st : List Person) (id : String)
    (p : Person) (n m : String) (hu : IdsUnique st) (hp : p ∈ st)
    (hid : castObjectId id = some p.id) (hn : n ≠ "") (hm : m ≠ "") :
    validatePerson n m = none ∧
      (app (memDb D) (.putPerson id ⟨.str n, .str m⟩) st).outcome
        = .respond ⟨200, .person ⟨p.id, n, m⟩⟩ ∧
      (app (memDb D) (.putPerson id ⟨.str n, .str m⟩) st).store
        = st.map (fun q => if q.id = p.id then (⟨q.id, n, m⟩ : Person) else q) ∧
      (app (memDb D) (.putPerson id ⟨.str n, .str m⟩) st).store.map (fun q => q.id)
        = st.map (fun q => q.id) ∧
      (∀ q ∈ st, q ≠ p → q ∈ (app (memDb D) (.putPerson id ⟨.str n, .str m⟩) st).store) ∧
      (app (memDb D) (.getPerson id)
          (app (memDb D) (.putPerson id ⟨.str n, .str m⟩) st).store).outcome
        = .respond ⟨200, .person ⟨p.id, n, m⟩⟩ := by
  have hn2 : (JsVal.str n).truthy = true := (JsVal.truthy_str n).2 hn
  have hm2 : (JsVal.str m).truthy = true := (JsVal.truthy_str m).2 hm
  have hfind := find?_id_of_mem hu hp
  have hv := validatePerson_eq_none hn hm
  have hstore : (app (memDb D) (.putPerson id ⟨.str n, .str m⟩) st).store
      = st.map (fun q => if q.id = p.id then (⟨q.id, n, m⟩ : Person) else q) := by
    simp [app, route, putPerson, memDb, memFindByIdAndUpdate, Driver.castString, hid, hfind,
      hn2, hm2, hv, updateFirst_eq_map p.id n m hu]
  have hmem : (⟨p.id, n, m⟩ : Person)
      ∈ st.map (fun q => if q.id = p.id then (⟨q.id, n, m⟩ : Person) else q) :=
    List.mem_map.mpr ⟨p, hp, by simp⟩
  have hu2 : IdsUnique (st.map (fun q => if q.id = p.id then (⟨q.id, n, m⟩ : Person) else q)) := by
    unfold IdsUnique
    rw [map_update_ids]
    exact hu
  have hfind2 := find?_id_of_mem hu2 hmem
  refine ⟨hv, ?_, hstore, ?_, ?_, ?_⟩
  · simp [app, route, putPerson, memDb, memFindByIdAndUpdate, Driver.castString, hid, hfind,
      hn2, hm2, hv]
  · rw [hstore, map_update_ids]
  · intro q hq hqp
    rw [hstore]
    refine List.mem_map.mpr ⟨q, hq, ?_⟩
    have hne : q.id ≠ p.id := by
      intro h
      have h1 := find?_id_of_mem hu hq
      rw [h, hfind] at h1
      exact hqp (Option.some.inj h1).symm
    simp [hne]
  · rw [hstore]
    simp only [app, route, getPerson, memDb, memFindById, hid]
    simp only at hfind2
    rw [hfind2]

theorem update_existing_replaces_fields_witness :
    (IdsUnique [⟨ObjectId.toHex 0, "Ada", "123"⟩, ⟨ObjectId.toHex 1, "Bob", "456"⟩] ∧
        (⟨ObjectId.toHex 1, "Bob", "456"⟩ : Person)
          ∈ [(⟨ObjectId.toHex 0, "Ada", "123"⟩ : Person), ⟨ObjectId.toHex 1, "Bob", "456"⟩] ∧
        castObjectId "000000000000000000000001" = some (ObjectId.toHex 1) ∧
        "Robert" ≠ "" ∧ "789" ≠ "") ∧
      (app (memDb sampleDriver) (.putPerson "000000000000000000000001" ⟨.str "Robert", .str "789"⟩)
          [⟨ObjectId.toHex 0, "Ada", "123"⟩, ⟨ObjectId.toHex 1, "Bob", "456"⟩]).outcome
        = .respond ⟨200, .person ⟨ObjectId.toHex 1, "Robert", "789"⟩⟩ :=
  ⟨⟨by decide, by decide, by decide, by decide, by decide⟩,
    (update_existing_replaces_fields sampleDriver
      [⟨ObjectId.toHex 0, "Ada", "123"⟩, ⟨ObjectId.toHex 1, "Bob", "456"⟩]
      "000000000000000000000001" ⟨ObjectId.toHex 1, "Bob", "456"⟩ "Robert" "789"
      (by decide) (by decide) (by decide) (by decide) (by decide)).2.1⟩

/-- C8: in a store with distinct identifiers, delete by the id of a stored entity is
answered 204 with an empty body; the resulting store is the previous one without
exactly that entity (one entity fewer, all others kept), and a following get on the
same id is answered 404. -/
theorem delete_existing_removes (D : Driver) (st : List Person) (id : String) (p : Person)
    (hu : IdsUnique st) (hp : p ∈ st) (hid : castObjectId id = some p.id) :
    (app (memDb D) (.deletePerson id) st).outcome = .respond ⟨204, .empty⟩ ∧
      (app (memDb D) (.deletePerson id) st).store = st.filter (fun q => q.id != p.id) ∧
      (app (memDb D) (.deletePerson id) st).store.length + 1 = st.length ∧
      (∀ q, q ∈ (app (memDb D) (.deletePerson id) st).store ↔ q ∈ st ∧ q ≠ p) ∧
      (app (memDb D) (.getPerson id) (app (memDb D) (.deletePerson id) st).store).outcome
        = .respond ⟨404, .error "Person not found"⟩ := by
  have hfind := find?_id_of_mem hu hp
  have hstore0 : (app (memDb D) (.deletePerson id) st).store
      = st.eraseP (fun q => q.id == p.id) := by
    simp [app, route, deletePerson, memDb, memFindByIdAndDelete, hid, hfind]
  have hstore : (app (memDb D) (.deletePerson id) st).store
      = st.filter (fun q => q.id != p.id) := by
    rw [hstore0, eraseP_id_eq_filter p.id hu]
  refine ⟨?_, hstore, ?_, ?_, ?_⟩
  · simp [app, route, deletePerson, memDb, memFindByIdAndDelete, hid, hfind]
  · rw [hstore0]
    exact List.length_eraseP_add_one hp (by simp)
  · intro q
    rw [hstore, List.mem_filter]
    constructor
    · rintro ⟨hq, hne⟩
      refine ⟨hq, ?_⟩
      rintro rfl
      simp at hne
    · rintro ⟨hq, hne⟩
      refine ⟨hq, ?_⟩
      have hne2 : q.id ≠ p.id := by
        intro h
        have h1 := find?_id_of_mem hu hq
        rw [h, hfind] at h1
        exact hne (Option.some.inj h1).symm
      simpa using hne2
  · rw [hstore]
    have hnone : (st.filter (fun q => q.id != p.id)).find? (fun q => q.id == p.id) = none := by
      apply find?_id_eq_none
      intro q hq
      have := (List.mem_filter.mp hq).2
      simpa using this
    simp [app, route, getPerson, memDb, memFindById, hid, hnone]

theorem delete_existing_removes_witness :
    (IdsUnique [⟨ObjectId.toHex 0, "Ada", "123"⟩, ⟨ObjectId.toHex 1, "Bob", "456"⟩] ∧
        (⟨ObjectId.toHex 0, "Ada", "123"⟩ : Person)
          ∈ [(⟨ObjectId.toHex 0, "Ada", "123"⟩ : Person), ⟨ObjectId.toHex 1, "Bob", "456"⟩] ∧
        castObjectId "000000000000000000000000" = some (ObjectId.toHex 0)) ∧
      (app (memDb sampleDriver) (.deletePerson "000000000000000000000000")
          [⟨ObjectId.toHex 0, "Ada", "123"⟩, ⟨ObjectId.toHex 1, "Bob", "456"⟩]).store
        = [⟨ObjectId.toHex 1, "Bob", "456"⟩] :=
  ⟨⟨by decide, by decide, by decide⟩,
    ((delete_existing_removes sampleDriver
      [⟨ObjectId.toHex 0, "Ada", "123"⟩, ⟨ObjectId.toHex 1, "Bob", "456"⟩]
      "000000000000000000000000" ⟨ObjectId.toHex 0, "Ada", "123"⟩
      (by decide) (by decide) (by decide)).2.1).trans (by decide)⟩

/-- C5: whenever a persistence call made for list, get, create (the name lookup or
the save), update, delete or info raises an error `e`, the outcome of the request is
`errorHandler e`; `errorHandler e` is 400 `Malformatted ID` for a `CastError` of kind
`ObjectId`, otherwise 400 with `e.message` for a `ValidationError`, otherwise no
response and `e` itself passed on. With the in-memory collection, get, update and
delete with a malformed identifier are answered 400. -/
theorem persistence_errors_reach_errorHandler :
    (∀ (σ : Type) (db : Persistence σ) (st : σ) (e : JsError),
      (db.find st = .error e → (app db .getPersons st).outcome = errorHandler e) ∧
      (∀ id, db.findById id st = .error e →
        (app db (.getPerson id) st).outcome = errorHandler e) ∧
      (∀ body : ReqBody, body.name.truthy = true → body.number.truthy = true →
        db.findOne body.name st = .error e →
        (app db (.postPerson body) st).outcome = errorHandler e) ∧
      (∀ (body : ReqBody) (st1 : σ), body.name.truthy = true → body.number.truthy = true →
        db.findOne body.name st = .ok none →
        db.save body.name body.number st = (.error e, st1) →
        (app db (.postPerson body) st).outcome = errorHandler e) ∧
      (∀ (id : String) (body : ReqBody) (st1 : σ),
        body.name.truthy = true → body.number.truthy = true →
        db.findByIdAndUpdate id body.name body.number st = (.error e, st1) →
        (app db (.putPerson id body) st).outcome = errorHandler e) ∧
      (∀ (id : String) (st1 : σ), db.findByIdAndDelete id st = (.error e, st1) →
        (app db (.deletePerson id) st).outcome = errorHandler e) ∧
      (db.countDocuments st = .error e → (app db .getInfo st).outcome = errorHandler e)) ∧
    (∀ e : JsError,
      (e.name = "CastError" → e.kind = some "ObjectId" →
        errorHandler e = .respond ⟨400, .error "Malformatted ID"⟩) ∧
      (¬ (e.name = "CastError" ∧ e.kind = some "ObjectId") → e.name = "ValidationError" →
        errorHandler e = .respond ⟨400, .error e.message⟩) ∧
      (¬ (e.name = "CastError" ∧ e.kind = some "ObjectId") → e.name ≠ "ValidationError" →
        errorHandler e = .next e)) ∧
    (∀ (D : Driver) (st : List Person) (id : String), castObjectId id = none →
      (app (memDb D) (.getPerson id) st).outcome
          = .respond ⟨400, .error "Malformatted ID"⟩ ∧
      (app (memDb D) (.deletePerson id) st).outcome
          = .respond ⟨400, .error "Malformatted ID"⟩ ∧
      (∀ body : ReqBody, body.name.truthy = true → body.number.truthy = true →
        (app (memDb D) (.putPerson id body) st).outcome
          = .respond ⟨400, .error "Malformatted ID"⟩) ∧
      (∀ body : ReqBody, ∃ msg,
        (app (memDb D) (.putPerson id body) st).outcome = .respond ⟨400, .error msg⟩)) := by
  refine ⟨?_, ?_, ?_⟩
  · intro σ db st e
    refine ⟨?_, ?_, ?_, ?_, ?_, ?_, ?_⟩
    · intro h
      simp [app, route, getPersons, h]
    · intro id h
      simp [app, route, getPerson, h]
    · intro body hn hm h
      simp [app, route, postPerson, hn, hm, h]
    · intro body st1 hn hm h1 h2
      simp [app, route, postPerson, hn, hm, h1, h2]
    · intro id body st1 hn hm h
      simp [app, route, putPerson, hn, hm, h]
    · intro id st1 h
      simp [app, route, deletePerson, h]
    · intro h
      simp [app, route, getInfo, h]
  · intro e
    refine ⟨?_, ?_, ?_⟩
    · intro h1 h2
      simp [errorHandler, h1, h2]
    · intro h1 h2
      simp only [errorHandler, if_neg h1, if_pos h2]
    · intro h1 h2
      simp only [errorHandler, if_neg h1, if_neg h2]
  · intro D st id hid
    have hput : ∀ body : ReqBody, body.name.truthy = true → body.number.truthy = true →
        (app (memDb D) (.putPerson id body) st).outcome
          = .respond ⟨400, .error "Malformatted ID"⟩ := by
      intro body hn hm
      simp [app, route, putPerson, memDb, memFindByIdAndUpdate, hid, hn, hm, errorHandler,
        castErrorObjectId]
    refine ⟨?_, ?_, hput, ?_⟩
    · simp [app, route, getPerson, memDb, memFindById, hid, errorHandler, castErrorObjectId]
    · simp [app, route, deletePerson, memDb, memFindByIdAndDelete, hid, errorHandler,
        castErrorObjectId]
    · intro body
      by_cases hg : body.name.truthy = true ∧ body.number.truthy = true
      · exact ⟨_, hput body hg.1 hg.2⟩
      · refine ⟨"Name and number are required", ?_⟩
        have hg2 : (!body.name.truthy || !body.number.truthy) = true := by
          cases h1 : body.name.truthy <;> cases h2 : body.number.truthy <;> simp_all
        simp [app, route, putPerson, hg2]

theorem persistence_errors_reach_errorHandler_witness :
    (memDb sampleDriver).findById "xyz" [] = .error (castErrorObjectId "xyz") ∧
      (app (memDb sampleDriver) (.getPerson "xyz") []).outcome
        = errorHandler (castErrorObjectId "xyz") ∧
      errorHandler (castErrorObjectId "xyz") = .respond ⟨400, .error "Malformatted ID"⟩ ∧
      errorHandler (validationError "number is too short")
        = .respond ⟨400, .error "number is too short"⟩ ∧
      errorHandler duplicateKeyError = .next duplicateKeyError :=
  ⟨rfl,
    (persistence_errors_reach_errorHandler.1 _ (memDb sampleDriver) [] _).2.1 "xyz" rfl,
    (persistence_errors_reach_errorHandler.2.1 (castErrorObjectId "xyz")).1 rfl rfl,
    (persistence_errors_reach_errorHandler.2.1 (validationError "number is too short")).2.1
      (by decide) rfl,
    (persistence_errors_reach_errorHandler.2.1 duplicateKeyError).2.2 (by decide) (by decide)⟩

/-- C9: from the empty store, one request at a time: creating Ada / 123 is answered
201 with a non-empty assigned id; creating Ada / 999 is answered 409 and the stored
entity still is Ada / 123; updating that id to Ada Lovelace / 999 is answered 200 with
those fields and the same id; deleting that id is answered 204; a following get of
that id is answered 404. -/
theorem ada_scenario (D : Driver) :
    ∃ (id : String) (r1 r2 r3 r4 r5 : Result (List Person)),
      r1 = app (memDb D) (.postPerson ⟨.str "Ada", .str "123"⟩) [] ∧
      r2 = app (memDb D) (.postPerson ⟨.str "Ada", .str "999"⟩) r1.store ∧
      r3 = app (memDb D) (.putPerson id ⟨.str "Ada Lovelace", .str "999"⟩) r2.store ∧
      r4 = app (memDb D) (.deletePerson id) r3.store ∧
      r5 = app (memDb D) (.getPerson id) r4.store ∧
      id ≠ "" ∧
      r1.outcome = .respond ⟨201, .person ⟨id, "Ada", "123"⟩⟩ ∧
      r2.outcome = .respond ⟨409, .error "Name already exists"⟩ ∧
      r2.store = [⟨id, "Ada", "123"⟩] ∧
      r3.outcome = .respond ⟨200, .person ⟨id, "Ada Lovelace", "999"⟩⟩ ∧
      r3.store = [⟨id, "Ada Lovelace", "999"⟩] ∧
      r4.outcome = .respond ⟨204, .empty⟩ ∧
      r4.store = [] ∧
      r5.outcome = .respond ⟨404, .error "Person not found"⟩ := by
  have h1 : app (memDb D) (.postPerson ⟨.str "Ada", .str "123"⟩) []
      = ⟨.respond ⟨201, .person ⟨ObjectId.toHex (D.genId []), "Ada", "123"⟩⟩,
          [⟨ObjectId.toHex (D.genId []), "Ada", "123"⟩],
          [.findOne (.str "Ada"), .save (.str "Ada") (.str "123")]⟩ := by
    simp [app, route, postPerson, memDb, memFindOne, memSave, Driver.castString, JsVal.truthy,
      validatePerson]
  have h2 : app (memDb D) (.postPerson ⟨.str "Ada", .str "999"⟩)
        [⟨ObjectId.toHex (D.genId []), "Ada", "123"⟩]
      = ⟨.respond ⟨409, .error "Name already exists"⟩,
          [⟨ObjectId.toHex (D.genId []), "Ada", "123"⟩], [.findOne (.str "Ada")]⟩ := by
    simp [app, route, postPerson, memDb, memFindOne, Driver.castString, JsVal.truthy]
  have h3 : app (memDb D)
        (.putPerson (ObjectId.toHex (D.genId [])) ⟨.str "Ada Lovelace", .str "999"⟩)
        [⟨ObjectId.toHex (D.genId []), "Ada", "123"⟩]
      = ⟨.respond ⟨200, .person ⟨ObjectId.toHex (D.genId []), "Ada Lovelace", "999"⟩⟩,
          [⟨ObjectId.toHex (D.genId []), "Ada Lovelace", "999"⟩],
          [.findByIdAndUpdate (ObjectId.toHex (D.genId [])) (.str "Ada Lovelace")
            (.str "999")]⟩ := by
    simp [app, route, putPerson, memDb, memFindByIdAndUpdate, Driver.castString, JsVal.truthy,
      validatePerson, castObjectId_toHex, updateFirst]
  have h4 : app (memDb D) (.deletePerson (ObjectId.toHex (D.genId [])))
        [⟨ObjectId.toHex (D.genId []), "Ada Lovelace", "999"⟩]
      = ⟨.respond ⟨204, .empty⟩, [], [.findByIdAndDelete (ObjectId.toHex (D.genId []))]⟩ := by
    simp [app, route, deletePerson, memDb, memFindByIdAndDelete, castObjectId_toHex]
  have h5 : (app (memDb D) (.getPerson (ObjectId.toHex (D.genId []))) []).outcome
      = .respond ⟨404, .error "Person not found"⟩ := by
    simp [app, route, getPerson, memDb, memFindById, castObjectId_toHex]
  refine ⟨ObjectId.toHex (D.genId []), _, _, _, _, _, rfl, rfl, rfl, rfl, rfl,
    toHex_ne_empty _, ?_, ?_, ?_, ?_, ?_, ?_, ?_, ?_⟩
  · rw [h1]
  · rw [h1, h2]
  · rw [h1, h2]
  · rw [h1, h2, h3]
  · rw [h1, h2, h3]
  · rw [h1, h2, h3, h4]
  · rw [h1, h2, h3, h4]
  · rw [h1, h2, h3, h4, h5]

/-- C4, at the failing input: with Ada and Bob stored (distinct names and ids), the
update of Bob's id with the name Ada is answered 200, and the store then holds two
entities named Ada. -/
theorem update_breaks_name_uniqueness :
    NamesUnique [⟨"000000000000000000000000", "Ada", "123"⟩,
        ⟨"000000000000000000000001", "Bob", "456"⟩] ∧
      IdsUnique [⟨"000000000000000000000000", "Ada", "123"⟩,
        ⟨"000000000000000000000001", "Bob", "456"⟩] ∧
      (app (memDb sampleDriver)
          (.putPerson "000000000000000000000001" ⟨.str "Ada", .str "456"⟩)
          [⟨"000000000000000000000000", "Ada", "123"⟩,
            ⟨"000000000000000000000001", "Bob", "456"⟩]).outcome
        = .respond ⟨200, .person ⟨"000000000000000000000001", "Ada", "456"⟩⟩ ∧
      (app (memDb sampleDriver)
          (.putPerson "000000000000000000000001" ⟨.str "Ada", .str "456"⟩)
          [⟨"000000000000000000000000", "Ada", "123"⟩,
            ⟨"000000000000000000000001", "Bob", "456"⟩]).store
        = [⟨"000000000000000000000000", "Ada", "123"⟩,
            ⟨"000000000000000000000001", "Ada", "456"⟩] ∧
      ¬ NamesUnique (app (memDb sampleDriver)
          (.putPerson "000000000000000000000001" ⟨.str "Ada", .str "456"⟩)
          [⟨"000000000000000000000000", "Ada", "123"⟩,
            ⟨"000000000000000000000001", "Bob", "456"⟩]).store := by
  refine ⟨by decide, by decide, by decide, by decide, by decide⟩

end Phonebook
